import Mathlib

/-!
Shallow embedding of the nestgram `Api` class (src/unnamed/part_000) and its
media-file-id cache integration, together with proofs of the specified
properties of the media-group payload builder, the single-item form builder,
and the cache write-back protocol.

JavaScript-specific semantics are modelled explicitly:
* `x || y` on strings/options is `jsOr` (the empty string is falsy);
* `!x` on an optional string is `jsFalsyOpt`;
* truthiness of a configuration value (`if (!data) return;`) is `jsTruthy`;
* object spread (`{a, ...b}`) is modelled as list concatenation of fields,
  with `jsObjValue` reading a field as JavaScript would (the last occurrence
  of a key wins).
-/

set_option autoImplicit false

/-- Generic first-match association-list lookup over string keys; used for the
media cache, message fields and configuration objects. -/
def alookup {α : Type} : List (String × α) → String → Option α
  | [], _ => none
  | (k, v) :: rest, key => if k = key then some v else alookup rest key

/-- JavaScript `a || b` for an optional string `a`: the empty string is falsy. -/
def jsOr (a : Option String) (b : String) : String :=
  match a with
  | none => b
  | some s => if s = "" then b else s

/-- JavaScript `!a` for an optional string `a` (`undefined` and `""` are falsy). -/
def jsFalsyOpt (a : Option String) : Bool :=
  match a with
  | none => true
  | some s => if s = "" then true else false

/-- How a `Media` object passes its payload: `passType === 'path'` means a
filesystem path read as a stream; the other branch appends the in-memory
buffer directly (source: `Api.appendMediaToFormData`, spec section 4.2). -/
inductive PassType where
  | path
  | buffer

/-- The identity-relevant part of a `Media` object: its local source string
(`media.media`) and how it is passed. -/
structure MediaRef where
  media : String
  passType : PassType

/-- JSON values, for structured configuration fields and the media-group
descriptor array. -/
inductive JsonValue where
  | str (s : String)
  | num (n : Int)
  | bool (b : Bool)
  | arr (xs : List JsonValue)
  | obj (fields : List (String × JsonValue))

/-- Escape of a string for JSON output (backslash and double quote). -/
def jsonEscape (s : String) : String :=
  s.foldl (fun acc c =>
    acc ++ (if c = '\\' then "\\\\" else if c = '"' then "\\\"" else String.singleton c)) ""

mutual

/-- `JSON.stringify` of a JSON value. -/
def jsonStringify : JsonValue → String
  | JsonValue.str s => "\"" ++ jsonEscape s ++ "\""
  | JsonValue.num n => toString n
  | JsonValue.bool b => if b then "true" else "false"
  | JsonValue.arr xs => "[" ++ jsonStringifyList xs ++ "]"
  | JsonValue.obj fs => "\x7b" ++ jsonStringifyFields fs ++ "\x7d"

/-- Comma-separated serialization of a JSON array's elements. -/
def jsonStringifyList : List JsonValue → String
  | [] => ""
  | [x] => jsonStringify x
  | x :: xs => jsonStringify x ++ "," ++ jsonStringifyList xs

/-- Comma-separated serialization of a JSON object's fields. -/
def jsonStringifyFields : List (String × JsonValue) → String
  | [] => ""
  | [(k, v)] => "\"" ++ jsonEscape k ++ "\":" ++ jsonStringify v
  | (k, v) :: fs => "\"" ++ jsonEscape k ++ "\":" ++ jsonStringify v ++ "," ++ jsonStringifyFields fs

end

/-- Field of a JavaScript object built by spread-concatenation: the last
occurrence of a key is the one that is visible. -/
def jsObjValue (fields : List (String × JsonValue)) (key : String) : Option JsonValue :=
  alookup fields.reverse key

/-- A value stored in a configuration object handed to the form builders. -/
inductive ConfigValue where
  | undef
  | null
  | str (s : String)
  | num (n : Int)
  | bool (b : Bool)
  | obj (j : JsonValue)
  | mediaV (m : MediaRef)

/-- JavaScript truthiness of a configuration value (`if (!data) return;`):
`undefined`, `null`, `""`, `0` and `false` are falsy, every object is truthy. -/
def jsTruthy : ConfigValue → Bool
  | ConfigValue.undef => false
  | ConfigValue.null => false
  | ConfigValue.str s => if s = "" then false else true
  | ConfigValue.num n => if n = 0 then false else true
  | ConfigValue.bool b => b
  | ConfigValue.obj _ => true
  | ConfigValue.mediaV _ => true

/-- A configuration object: ordered fields, as iterated by `Object.keys`. -/
abbrev Config := List (String × ConfigValue)

/-- A value appended to a multipart form. -/
inductive FormValue where
  | str (s : String)
  | stream (path : String)
  | buffer (data : String)
  | jsonOfMedia (m : MediaRef)

/-- Whether a form value is a binary payload (a path-backed stream or an
in-memory buffer), as opposed to a plain string field. -/
def FormValue.isBinary : FormValue → Bool
  | FormValue.stream _ => true
  | FormValue.buffer _ => true
  | _ => false

/-- A multipart form: the ordered list of appended `(field name, value)` pairs. -/
abbrev FormData := List (String × FormValue)

/-- All values appended to a form under a given field name, in append order. -/
def fieldValues : FormData → String → List FormValue
  | [], _ => []
  | (k, v) :: rest, key =>
      if k = key then v :: fieldValues rest key else fieldValues rest key

/-- The media cache state: local key to remote file identifier
(spec section 3, `CacheEntry`). -/
abbrev Cache := List (String × String)

/-- Modelled from the spec: the `MediaCache` module is not under src/ (only its
caller `Api` is). Spec section 4.1: `lookup(key)` is a pure read returning the
cached identifier or absent. -/
def MediaCache.getMediaFileId (cache : Cache) (key : String) : Option String :=
  alookup cache key

/-- Modelled from the spec: the `MediaCache` module is not under src/. Spec
section 4.1: `store(key, identifier)` inserts if `key` is absent and is a
no-op (not an overwrite) if `key` is already present. -/
def MediaCache.saveMediaFileId (cache : Cache) (key fileId : String) : Cache :=
  if (MediaCache.getMediaFileId cache key).isSome then cache else (key, fileId) :: cache

/-- Well-formedness of a cache state: every stored remote identifier is a
nonempty string (an empty identifier would be indistinguishable from a miss
under JavaScript falsiness). -/
def CacheWF (cache : Cache) : Prop := ∀ e ∈ cache, e.2 ≠ ""

/-- Either a cached identifier string or a `Media` object, the union type
accepted by `Api.appendMediaToFormData`. -/
inductive MediaOrString where
  | str (s : String)
  | media (m : MediaRef)

/-- The binary form value a `Media` object contributes: a read stream for a
path-backed reference, the raw buffer otherwise. -/
def binaryOfMedia (m : MediaRef) : FormValue :=
  match m.passType with
  | PassType.path => FormValue.stream m.media
  | PassType.buffer => FormValue.buffer m.media

/-- Embedding of `Api.appendMediaToFormData` (src lines 89-97): a string is
appended as-is; a path-backed media as a read stream; otherwise the raw
buffer. -/
def Api.appendMediaToFormData (fd : FormData) (key : String) (v : MediaOrString) : FormData :=
  match v with
  | MediaOrString.str s => fd ++ [(key, FormValue.str s)]
  | MediaOrString.media m =>
      match m.passType with
      | PassType.path => fd ++ [(key, FormValue.stream m.media)]
      | PassType.buffer => fd ++ [(key, FormValue.buffer m.media)]

/-- The single form value `Api.appendMediaToFormData` appends for its
argument: the string itself, or the binary payload of a `Media` object. -/
def mediaFormValue : MediaOrString → FormValue
  | MediaOrString.str s => FormValue.str s
  | MediaOrString.media m => binaryOfMedia m

/-- The resolve-or-attach step `mediaCache.getMediaFileId(media.media) || media`
used by `Api.buildFormData` for the primary media and the thumbnail. -/
def Api.resolveMedia (cache : Cache) (m : MediaRef) : MediaOrString :=
  match MediaCache.getMediaFileId cache m.media with
  | some fileId => if fileId = "" then MediaOrString.media m else MediaOrString.str fileId
  | none => MediaOrString.media m

/-- The value the configuration loop appends for a truthy field:
`typeof data === 'object' ? JSON.stringify(data) : data`. A `Media` object
(the `thumb` field) serializes to the JSON text of that object, kept abstract
because the `Media` class body is not under src/. -/
def appendedValue : ConfigValue → FormValue
  | ConfigValue.str s => FormValue.str s
  | ConfigValue.num n => FormValue.str (toString n)
  | ConfigValue.bool b => FormValue.str (if b then "true" else "false")
  | ConfigValue.obj j => FormValue.str (jsonStringify j)
  | ConfigValue.mediaV m => FormValue.jsonOfMedia m
  | ConfigValue.undef => FormValue.str ""
  | ConfigValue.null => FormValue.str ""

/-- The `Object.keys(config).forEach` loop shared by `Api.buildFormData`
(src lines 120-124) and `Api.buildAttachFormData` (src lines 132-137): skip
falsy values, JSON-stringify objects, append everything else as-is. -/
def Api.configLoop (fd : FormData) : Config → FormData
  | [] => fd
  | (k, v) :: rest =>
      Api.configLoop (if jsTruthy v then fd ++ [(k, appendedValue v)] else fd) rest

/-- Declarative description of the configuration loop's appends: the truthy
fields, in order, with objects JSON-serialized. -/
def Api.configFieldsSpec (config : Config) : FormData :=
  config.filterMap (fun e => if jsTruthy e.2 then some (e.1, appendedValue e.2) else none)

/-- The `config.thumb` property read by `Api.buildFormData`: present exactly
when the configuration holds a `Media` object under the key `thumb`. -/
def configThumb (config : Config) : Option MediaRef :=
  match alookup config "thumb" with
  | some (ConfigValue.mediaV m) => some m
  | _ => none

/-- Embedding of `Api.buildFormData` (src lines 99-127): append the resolved
primary media, then the resolved thumbnail if `config.thumb` is set, then run
the configuration loop over every field of `config`. -/
def Api.buildFormData (cache : Cache) (fromMediaKey : String) (media : MediaRef)
    (config : Config) : FormData :=
  let fd1 := Api.appendMediaToFormData [] fromMediaKey (Api.resolveMedia cache media)
  let fd2 :=
    match configThumb config with
    | some t => Api.appendMediaToFormData fd1 "thumb" (Api.resolveMedia cache t)
    | none => fd1
  Api.configLoop fd2 config

/-- Embedding of `Api.buildAttachFormData` (src lines 129-139): only the
configuration loop, on a fresh form. -/
def Api.buildAttachFormData (config : Config) : FormData :=
  Api.configLoop [] config

/-- The media part of a message in a response: either a single object carrying
a `file_id`, or (photos) the ordered ascending-resolution list of variants,
each with its own `file_id` (spec section 6, response shape). -/
inductive MessageMedia where
  | mediaObj (fileId : String)
  | photoArr (fileIds : List String)

/-- A response message, exposing its media-kind-keyed fields
(`message[mediaKey]`). -/
structure IMessage where
  fields : List (String × MessageMedia)

/-- Dynamic field access `message[mediaKey]`. -/
def msgField (msg : IMessage) (key : String) : Option MessageMedia :=
  alookup msg.fields key

/-- The file identifier `Api.saveMediaFileId` extracts from a response message
(src lines 146-149): `message[mediaKey].file_id`, except that for `photo` the
last element of the variant list is taken first. `none` models the dynamic
failure paths (missing field, or a field whose shape does not match the key). -/
def Api.extractedFileId (mediaKey : String) (msg : IMessage) : Option String :=
  match msgField msg mediaKey with
  | none => none
  | some (MessageMedia.mediaObj fileId) => if mediaKey = "photo" then none else some fileId
  | some (MessageMedia.photoArr fileIds) => if mediaKey = "photo" then fileIds.getLast? else none

/-- Embedding of `Api.saveMediaFileId` (src lines 141-153): write the extracted
identifier back under the original local key only if that key is not already
cached (`if (!mediaCache.getMediaFileId(path))`). -/
def Api.saveMediaFileId (cache : Cache) (path mediaKey : String) (msg : IMessage) : Cache :=
  if jsFalsyOpt (MediaCache.getMediaFileId cache path) then
    match Api.extractedFileId mediaKey msg with
    | some fileId => MediaCache.saveMediaFileId cache path fileId
    | none => cache
  else cache

/-- An element of a media group (`InputSupportedMedia`): a media reference plus
its kind tag, optional thumbnail, the `Video`-only resolution fields, and the
per-item options spread into the descriptor. -/
structure InputMedia extends MediaRef where
  type : String
  thumb : Option MediaRef
  isVideo : Bool
  resolution : List (String × JsonValue)
  options : List (String × JsonValue)

/-- The descriptor object built for item `index` of a media group
(src lines 469-477): kind tag, cached identifier or `attach://{index}`
placeholder, optional thumbnail reference (identifier or
`attach://{index}_thumb`), then the spread resolution and option fields. -/
def Api.descriptorFields (cache : Cache) (index : Nat) (m : InputMedia) :
    List (String × JsonValue) :=
  [("type", JsonValue.str m.type),
   ("media", JsonValue.str (jsOr (MediaCache.getMediaFileId cache m.media)
      ("attach://" ++ toString index)))]
  ++ (match m.thumb with
      | some t =>
          [("thumb", JsonValue.str (jsOr (MediaCache.getMediaFileId cache t.media)
             ("attach://" ++ toString index ++ "_thumb")))]
      | none => [])
  ++ (if m.isVideo then m.resolution else [])
  ++ m.options

/-- The JSON descriptor array of a media group: `mediaGroup.map((media, index) => ...)`
(src lines 468-478), starting at `index`. -/
def Api.mediaGroupDescriptors (cache : Cache) : Nat → List InputMedia → List JsonValue
  | _, [] => []
  | index, m :: rest =>
      JsonValue.obj (Api.descriptorFields cache index m)
        :: Api.mediaGroupDescriptors cache (index + 1) rest

/-- First half of the `mediaGroup.forEach` body (src lines 483-484): if the
item is not cached, append its raw binary under the field name equal to its
index. -/
def Api.attachMediaStep (cache : Cache) (fd : FormData) (index : Nat) (m : InputMedia) : FormData :=
  if jsFalsyOpt (MediaCache.getMediaFileId cache m.media) then
    Api.appendMediaToFormData fd (toString index) (MediaOrString.media m.toMediaRef)
  else fd

/-- Second half of the `mediaGroup.forEach` body (src lines 486-489): if the
item has a thumbnail and the thumbnail is not cached, append its raw binary
under the field name `{index}_thumb`. -/
def Api.attachThumbStep (cache : Cache) (fd : FormData) (index : Nat) (m : InputMedia) : FormData :=
  match m.thumb with
  | some t =>
      if jsFalsyOpt (MediaCache.getMediaFileId cache t.media) then
        Api.appendMediaToFormData fd (toString index ++ "_thumb") (MediaOrString.media t)
      else fd
  | none => fd

/-- The `mediaGroup.forEach` loop of `Api.sendMediaGroup` (src lines 482-490):
for each cache-miss item append its raw binary under the field name equal to
its index, and likewise `{index}_thumb` for an uncached thumbnail. -/
def Api.attachLoop (cache : Cache) : List InputMedia → FormData → Nat → FormData
  | [], fd, _ => fd
  | m :: rest, fd, index =>
      Api.attachLoop cache rest
        (Api.attachThumbStep cache (Api.attachMediaStep cache fd index m) index m) (index + 1)

/-- Declarative description of the binary parts of a media-group form, from
item `index` on: one part named `toString index` for each cache-miss item,
one part named `toString index ++ "_thumb"` for each present uncached
thumbnail, nothing for cache hits. -/
def Api.attachPartsSpec (cache : Cache) : Nat → List InputMedia → FormData
  | _, [] => []
  | index, m :: rest =>
      ((if (MediaCache.getMediaFileId cache m.media).isNone then
          [(toString index, binaryOfMedia m.toMediaRef)]
        else [])
      ++ (match m.thumb with
          | some t =>
              if (MediaCache.getMediaFileId cache t.media).isNone then
                [(toString index ++ "_thumb", binaryOfMedia t)]
              else []
          | none => []))
      ++ Api.attachPartsSpec cache (index + 1) rest

/-- The full multipart form of `Api.sendMediaGroup` (src lines 466-490):
chat target, JSON descriptor array and batch options through
`buildAttachFormData`, then the out-of-band binary parts. -/
def Api.sendMediaGroupForm (cache : Cache) (chatId : ConfigValue)
    (group : List InputMedia) (moreOptions : Config) : FormData :=
  Api.attachLoop cache group
    (Api.buildAttachFormData
      ([("chat_id", chatId),
        ("media", ConfigValue.obj (JsonValue.arr (Api.mediaGroupDescriptors cache 0 group)))]
       ++ moreOptions)) 0

/-- The batch write-back loop of `Api.sendMediaGroup` (src lines 497-500).
The source pairs each response message with `mediaGroup[sentMessages.indexOf(sentMessage)]`;
since the parsed response messages are pairwise distinct object references,
`indexOf` inside the iteration is exactly the iteration index, so the loop
pairs the i-th message with the i-th input item. A response longer than the
input (a remote-contract violation, a thrown `TypeError` in the source) stops
the loop. -/
def Api.batchWriteBack : Cache → List InputMedia → List IMessage → Cache
  | cache, _, [] => cache
  | cache, [], _ :: _ => cache
  | cache, m :: rest, msg :: msgs =>
      Api.batchWriteBack (Api.saveMediaFileId cache m.media m.type msg) rest msgs

/-- A failed transport exchange: the optional remote error description
(`e.response?.data?.description`) and the raw error text. -/
structure TransportFailure where
  description : Option String
  raw : String

/-- The error text `Api.call` wraps a failure with:
`e.response?.data?.description || e`. -/
def Api.describeFailure (e : TransportFailure) : String :=
  jsOr e.description e.raw

/-- Embedding of `Api.call` (src lines 66-82): the network exchange is
abstracted as its outcome; a failure is wrapped into a single descriptive
error, a success returns the parsed result. -/
def Api.call {α : Type} (outcome : Except TransportFailure α) : Except String α :=
  match outcome with
  | Except.ok d => Except.ok d
  | Except.error e => Except.error (".callApi error: " ++ Api.describeFailure e)

/-- Embedding of `Api.callApi` (src lines 84-87): with no configured token the
call raises before any network activity; otherwise it delegates to `call`. -/
def Api.callApi {α : Type} (token : Option String) (method : String)
    (outcome : Except TransportFailure α) : Except String α :=
  if jsFalsyOpt token then
    Except.error ("You can't call ." ++ method ++ " without token")
  else Api.call outcome

/-- The single-media send pipeline shared by `sendPhoto`, `sendVideo`,
`sendAudio`, ... (src lines 245-452): build the form, perform the remote call,
and on success write the extracted identifier back into the cache. The state
after a failure is the unchanged input cache, since the exception propagates
before `Api.saveMediaFileId` runs. -/
def Api.sendSingleMedia (cache : Cache) (token : Option String) (method mediaKey : String)
    (media : MediaRef) (config : Config) (outcome : Except TransportFailure IMessage) :
    Except String (IMessage × Cache) :=
  let _fd := Api.buildFormData cache mediaKey media config
  match Api.callApi token method outcome with
  | Except.error e => Except.error e
  | Except.ok msg => Except.ok (msg, Api.saveMediaFileId cache media.media mediaKey msg)

/-- The batch send pipeline of `Api.sendMediaGroup` (src lines 461-503): build
the shared form, perform the remote call, and on success run the positional
write-back over the response list. -/
def Api.sendMediaGroupRun (cache : Cache) (token : Option String) (chatId : ConfigValue)
    (group : List InputMedia) (moreOptions : Config)
    (outcome : Except TransportFailure (List IMessage)) :
    Except String (List IMessage × Cache) :=
  let _fd := Api.sendMediaGroupForm cache chatId group moreOptions
  match Api.callApi token "sendMediaGroup" outcome with
  | Except.error e => Except.error e
  | Except.ok msgs => Except.ok (msgs, Api.batchWriteBack cache group msgs)

/-- The cache state observable after a single-media send: the written-back
cache on success, the untouched input cache when the call threw. -/
def Api.cacheAfterSingleSend (cache : Cache) (token : Option String) (method mediaKey : String)
    (media : MediaRef) (config : Config) (outcome : Except TransportFailure IMessage) : Cache :=
  match Api.sendSingleMedia cache token method mediaKey media config outcome with
  | Except.ok (_, c) => c
  | Except.error _ => cache

/-- The cache state observable after a media-group send: the written-back
cache on success, the untouched input cache when the call threw. -/
def Api.cacheAfterGroupSend (cache : Cache) (token : Option String) (chatId : ConfigValue)
    (group : List InputMedia) (moreOptions : Config)
    (outcome : Except TransportFailure (List IMessage)) : Cache :=
  match Api.sendMediaGroupRun cache token chatId group moreOptions outcome with
  | Except.ok (_, c) => c
  | Except.error _ => cache

/-- Sample media-group item 0: a path-backed photo, no thumbnail. -/
def sampleItemA : InputMedia :=
  { media := "pa.jpg", passType := PassType.path, type := "photo",
    thumb := none, isVideo := false, resolution := [], options := [] }

/-- Sample media-group item 1: a path-backed video with resolution fields. -/
def sampleItemB : InputMedia :=
  { media := "pb.mp4", passType := PassType.path, type := "video",
    thumb := none, isVideo := true,
    resolution := [("width", JsonValue.num 640), ("height", JsonValue.num 480)],
    options := [] }

/-- Sample media-group item 2: a path-backed document, no thumbnail. -/
def sampleItemC : InputMedia :=
  { media := "pc.pdf", passType := PassType.path, type := "document",
    thumb := none, isVideo := false, resolution := [], options := [] }

/-- Sample item with an uncached thumbnail. -/
def sampleItemD : InputMedia :=
  { media := "pd.mp4", passType := PassType.path, type := "video",
    thumb := some { media := "td.jpg", passType := PassType.path }, isVideo := true,
    resolution := [("width", JsonValue.num 640), ("height", JsonValue.num 480)],
    options := [] }

/-- The three-item batch of the spec's batch example: items 0 and 2 are cache
misses, item 1 is a cache hit in `sampleCacheHitB`. -/
def sampleGroup : List InputMedia := [sampleItemA, sampleItemB, sampleItemC]

/-- A cache holding an identifier for `sampleItemB` only. -/
def sampleCacheHitB : Cache := [("pb.mp4", "CACHED1")]

/-- Sample batch response message for item 0: a photo variant list in
ascending resolution. -/
def sampleMsgA : IMessage := ⟨[("photo", MessageMedia.photoArr ["fa_small", "fa_big"])]⟩

/-- Sample batch response message for item 1. -/
def sampleMsgB : IMessage := ⟨[("video", MessageMedia.mediaObj "fb")]⟩

/-- Sample batch response message for item 2. -/
def sampleMsgC : IMessage := ⟨[("document", MessageMedia.mediaObj "fc")]⟩

/-- Sample thumbnail reference used by the single-item form-builder facts. -/
def sampleThumb : MediaRef := { media := "th.jpg", passType := PassType.path }

/-- Sample `sendVideo`-style configuration carrying a thumbnail, as built at
src lines 288-294. -/
def sampleVideoCfg : Config :=
  [("chat_id", ConfigValue.str "1"), ("thumb", ConfigValue.mediaV sampleThumb)]

/-! ## Helper lemmas -/

theorem alookup_append_right {α : Type} (l1 l2 : List (String × α)) (k : String)
    (h : k ∉ l1.map Prod.fst) : alookup (l1 ++ l2) k = alookup l2 k := by
  induction l1 with
  | nil => rfl
  | cons e rest ih =>
    simp only [List.map_cons, List.mem_cons, not_or] at h
    simp only [List.cons_append, alookup]
    rw [if_neg fun he => h.1 he.symm]
    exact ih h.2

theorem alookup_append_singleton {α : Type} (l1 : List (String × α)) (k : String) (v : α) :
    alookup (l1 ++ [(k, v)] ) k = some (alookup l1 k |>.getD v) := by
  induction l1 with
  | nil => simp [alookup]
  | cons e rest ih =>
    by_cases he : e.1 = k
    · simp [alookup, List.cons_append, he]
    · simp only [List.cons_append, alookup, if_neg he]
      simpa using ih

theorem fieldValues_append (a b : FormData) (k : String) :
    fieldValues (a ++ b) k = fieldValues a k ++ fieldValues b k := by
  induction a with
  | nil => rfl
  | cons e rest ih =>
    simp only [List.cons_append, fieldValues]
    by_cases he : e.1 = k
    · simp [he, ih]
    · simp [he, ih]

theorem fieldValues_nil_of_notmem (a : FormData) (k : String) (h : k ∉ a.map Prod.fst) :
    fieldValues a k = [] := by
  induction a with
  | nil => rfl
  | cons e rest ih =>
    simp only [List.map_cons, List.mem_cons, not_or] at h
    simp only [fieldValues]
    rw [if_neg fun he => h.1 he.symm]
    exact ih h.2

theorem configLoop_eq_append (config : Config) :
    ∀ fd : FormData, Api.configLoop fd config = fd ++ Api.configFieldsSpec config := by
  induction config with
  | nil => intro fd; simp [Api.configLoop, Api.configFieldsSpec]
  | cons e rest ih =>
    intro fd
    obtain ⟨k, v⟩ := e
    simp only [Api.configLoop, Api.configFieldsSpec, List.filterMap_cons]
    cases hv : jsTruthy v with
    | false => simp [hv, ih, Api.configFieldsSpec]
    | true => simp [hv, ih, Api.configFieldsSpec, List.append_assoc]

theorem appendMedia_eq (fd : FormData) (k : String) (v : MediaOrString) :
    Api.appendMediaToFormData fd k v = fd ++ [(k, mediaFormValue v)] := by
  cases v with
  | str s => rfl
  | media m => cases m with | mk media passType => cases passType <;> rfl

theorem appendedValue_not_binary (v : ConfigValue) : (appendedValue v).isBinary = false := by
  cases v <;> rfl

theorem configFieldsSpec_map_fst (config : Config) :
    (Api.configFieldsSpec config).map Prod.fst
      = (config.filter (fun e => jsTruthy e.2)).map Prod.fst := by
  induction config with
  | nil => rfl
  | cons e rest ih =>
    obtain ⟨k, v⟩ := e
    simp only [Api.configFieldsSpec, List.filterMap_cons, List.filter_cons]
    cases hv : jsTruthy v with
    | false => simpa [hv, Api.configFieldsSpec] using ih
    | true => simpa [hv, Api.configFieldsSpec] using ih

theorem fieldValues_configFieldsSpec_nil (config : Config) (k : String)
    (h : k ∉ config.map Prod.fst) : fieldValues (Api.configFieldsSpec config) k = [] := by
  induction config with
  | nil => rfl
  | cons e rest ih =>
    obtain ⟨k1, v⟩ := e
    simp only [List.map_cons, List.mem_cons, not_or] at h
    have hk : ¬ (k1 = k) := fun he => h.1 he.symm
    simp only [Api.configFieldsSpec, List.filterMap_cons]
    cases hv : jsTruthy v with
    | false => simpa [hv, Api.configFieldsSpec] using ih h.2
    | true =>
      simp only [hv]
      simpa [fieldValues, hk, Api.configFieldsSpec] using ih h.2

theorem fieldValues_configFieldsSpec_not_binary (config : Config) (k : String) :
    ∀ v ∈ fieldValues (Api.configFieldsSpec config) k, v.isBinary = false := by
  induction config with
  | nil => intro v hv; simp [Api.configFieldsSpec, fieldValues] at hv
  | cons e rest ih =>
    obtain ⟨k1, v1⟩ := e
    intro v hv
    simp only [Api.configFieldsSpec, List.filterMap_cons] at hv
    cases h1 : jsTruthy v1 with
    | false =>
      rw [h1] at hv
      exact ih v (by simpa [Api.configFieldsSpec] using hv)
    | true =>
      rw [h1] at hv
      simp only [fieldValues] at hv
      by_cases hk : k1 = k
      · rw [if_pos hk] at hv
        rcases List.mem_cons.mp hv with h | h
        · rw [h]; exact appendedValue_not_binary v1
        · exact ih v (by simpa [Api.configFieldsSpec] using h)
      · rw [if_neg hk] at hv
        exact ih v (by simpa [Api.configFieldsSpec] using hv)

theorem getMediaFileId_save_of_none (cache : Cache) (k v : String)
    (h : MediaCache.getMediaFileId cache k = none) :
    MediaCache.getMediaFileId (MediaCache.saveMediaFileId cache k v) k = some v := by
  unfold MediaCache.saveMediaFileId
  rw [h]
  simp [MediaCache.getMediaFileId, alookup]

theorem getMediaFileId_save_other (cache : Cache) (k v k' : String) (h : k' ≠ k) :
    MediaCache.getMediaFileId (MediaCache.saveMediaFileId cache k v) k'
      = MediaCache.getMediaFileId cache k' := by
  unfold MediaCache.saveMediaFileId
  by_cases hs : (MediaCache.getMediaFileId cache k).isSome
  · rw [if_pos hs]
  · rw [if_neg hs]
    simp only [MediaCache.getMediaFileId, alookup]
    rw [if_neg fun he => h he.symm]

theorem mediaCacheSave_of_present (cache : Cache) (k v w : String)
    (h : MediaCache.getMediaFileId cache k = some v) :
    MediaCache.saveMediaFileId cache k w = cache := by
  unfold MediaCache.saveMediaFileId
  rw [h]
  rfl

theorem CacheWF.lookup_ne_empty {cache : Cache} {k fileId : String} (hwf : CacheWF cache)
    (h : MediaCache.getMediaFileId cache k = some fileId) : fileId ≠ "" := by
  induction cache with
  | nil => simp [MediaCache.getMediaFileId, alookup] at h
  | cons e rest ih =>
    simp only [MediaCache.getMediaFileId, alookup] at h
    by_cases he : e.1 = k
    · rw [if_pos he] at h
      injection h with h
      exact h ▸ hwf e (List.mem_cons_self e rest)
    · rw [if_neg he] at h
      exact ih (fun x hx => hwf x (List.mem_cons_of_mem e hx)) h

theorem jsFalsy_lookup_eq_isNone {cache : Cache} (hwf : CacheWF cache) (k : String) :
    jsFalsyOpt (MediaCache.getMediaFileId cache k)
      = (MediaCache.getMediaFileId cache k).isNone := by
  cases h : MediaCache.getMediaFileId cache k with
  | none => rfl
  | some fileId => simp [jsFalsyOpt, CacheWF.lookup_ne_empty hwf h]

theorem apiSave_lookup_other (cache : Cache) (path mediaKey : String) (msg : IMessage)
    (k : String) (h : k ≠ path) :
    MediaCache.getMediaFileId (Api.saveMediaFileId cache path mediaKey msg) k
      = MediaCache.getMediaFileId cache k := by
  unfold Api.saveMediaFileId
  by_cases hf : jsFalsyOpt (MediaCache.getMediaFileId cache path)
  · rw [if_pos hf]
    cases Api.extractedFileId mediaKey msg with
    | none => rfl
    | some fileId => exact getMediaFileId_save_other cache path fileId k h
  · rw [if_neg hf]

theorem apiSave_lookup_self_of_none (cache : Cache) (path mediaKey : String) (msg : IMessage)
    (h : MediaCache.getMediaFileId cache path = none) :
    MediaCache.getMediaFileId (Api.saveMediaFileId cache path mediaKey msg) path
      = Api.extractedFileId mediaKey msg := by
  unfold Api.saveMediaFileId
  rw [h]
  simp only [jsFalsyOpt, if_pos trivial]
  cases he : Api.extractedFileId mediaKey msg with
  | none => exact h
  | some fileId => exact getMediaFileId_save_of_none cache path fileId h

theorem apiSave_lookup_of_some (cache : Cache) (path mediaKey : String) (msg : IMessage)
    (v : String) (h : MediaCache.getMediaFileId cache path = some v) :
    MediaCache.getMediaFileId (Api.saveMediaFileId cache path mediaKey msg) path = some v := by
  cases hf : jsFalsyOpt (MediaCache.getMediaFileId cache path) with
  | false =>
    have hid : Api.saveMediaFileId cache path mediaKey msg = cache := by
      unfold Api.saveMediaFileId; rw [hf]; simp
    rw [hid]; exact h
  | true =>
    cases he : Api.extractedFileId mediaKey msg with
    | none =>
      have hid : Api.saveMediaFileId cache path mediaKey msg = cache := by
        unfold Api.saveMediaFileId; rw [hf, he]; simp
      rw [hid]; exact h
    | some fileId =>
      have hsave : Api.saveMediaFileId cache path mediaKey msg
          = MediaCache.saveMediaFileId cache path fileId := by
        unfold Api.saveMediaFileId; rw [hf, he]; simp
      rw [hsave, mediaCacheSave_of_present cache path v fileId h]
      exact h

theorem batchWriteBack_preserve (k : String) (group : List InputMedia) :
    ∀ (msgs : List IMessage) (cache : Cache), k ∉ group.map (fun m => m.media) →
      MediaCache.getMediaFileId (Api.batchWriteBack cache group msgs) k
        = MediaCache.getMediaFileId cache k := by
  induction group with
  | nil => intro msgs cache _; cases msgs <;> rfl
  | cons m rest ih =>
    intro msgs cache h
    cases msgs with
    | nil => rfl
    | cons msg ms =>
      simp only [List.map_cons, List.mem_cons, not_or] at h
      show MediaCache.getMediaFileId
        (Api.batchWriteBack (Api.saveMediaFileId cache m.media m.type msg) rest ms) k = _
      rw [ih ms _ h.2, apiSave_lookup_other _ _ _ _ _ h.1]

theorem batchWriteBack_lookup (group : List InputMedia) :
    ∀ (msgs : List IMessage) (cache : Cache) (i : Nat) (m : InputMedia) (msg : IMessage),
      (group.map (fun x => x.media)).Nodup →
      (∀ x ∈ group, MediaCache.getMediaFileId cache x.media = none) →
      group.get? i = some m → msgs.get? i = some msg →
      MediaCache.getMediaFileId (Api.batchWriteBack cache group msgs) m.media
        = Api.extractedFileId m.type msg := by
  induction group with
  | nil => intro msgs cache i m msg _ _ hg _; simp at hg
  | cons g rest ih =>
    intro msgs cache i m msg hnd hmiss hg hm
    cases msgs with
    | nil => simp at hm
    | cons msg0 ms =>
      simp only [List.map_cons, List.nodup_cons] at hnd
      show MediaCache.getMediaFileId
        (Api.batchWriteBack (Api.saveMediaFileId cache g.media g.type msg0) rest ms) m.media = _
      cases i with
      | zero =>
        simp only [List.get?_cons_zero] at hg hm
        injection hg with hg
        injection hm with hm
        subst hg
        subst hm
        rw [batchWriteBack_preserve _ rest ms _ hnd.1]
        exact apiSave_lookup_self_of_none _ _ _ _ (hmiss g (List.mem_cons_self g rest))
      | succ j =>
        simp only [List.get?_cons_succ] at hg hm
        apply ih ms _ j m msg hnd.2 ?_ hg hm
        intro x hx
        rw [apiSave_lookup_other]
        · exact hmiss x (List.mem_cons_of_mem g hx)
        · exact fun he => hnd.1 (he ▸ List.mem_map_of_mem (fun y => y.media) hx)

theorem attachMediaStep_eq {cache : Cache} (hwf : CacheWF cache) (fd : FormData)
    (index : Nat) (m : InputMedia) :
    Api.attachMediaStep cache fd index m
      = fd ++ (if (MediaCache.getMediaFileId cache m.media).isNone then
          [(toString index, binaryOfMedia m.toMediaRef)]
        else []) := by
  unfold Api.attachMediaStep
  rw [jsFalsy_lookup_eq_isNone hwf]
  cases h : (MediaCache.getMediaFileId cache m.media).isNone with
  | false => simp [h]
  | true => simp [h, appendMedia_eq, mediaFormValue]

theorem attachThumbStep_eq {cache : Cache} (hwf : CacheWF cache) (fd : FormData)
    (index : Nat) (m : InputMedia) :
    Api.attachThumbStep cache fd index m
      = fd ++ (match m.thumb with
          | some t =>
              if (MediaCache.getMediaFileId cache t.media).isNone then
                [(toString index ++ "_thumb", binaryOfMedia t)]
              else []
          | none => []) := by
  unfold Api.attachThumbStep
  cases ht : m.thumb with
  | none => simp
  | some t =>
    show (if jsFalsyOpt (MediaCache.getMediaFileId cache t.media) = true then
        Api.appendMediaToFormData fd (toString index ++ "_thumb") (MediaOrString.media t)
      else fd)
      = fd ++ (if (MediaCache.getMediaFileId cache t.media).isNone = true then
          [(toString index ++ "_thumb", binaryOfMedia t)]
        else [])
    rw [jsFalsy_lookup_eq_isNone hwf]
    cases h : (MediaCache.getMediaFileId cache t.media).isNone with
    | false => simp [h]
    | true => simp [h, appendMedia_eq, mediaFormValue]

theorem attachLoop_eq_spec {cache : Cache} (hwf : CacheWF cache) (group : List InputMedia) :
    ∀ (fd : FormData) (index : Nat),
      Api.attachLoop cache group fd index = fd ++ Api.attachPartsSpec cache index group := by
  induction group with
  | nil => intro fd index; simp [Api.attachLoop, Api.attachPartsSpec]
  | cons m rest ih =>
    intro fd index
    show Api.attachLoop cache rest
        (Api.attachThumbStep cache (Api.attachMediaStep cache fd index m) index m) (index + 1)
      = _
    rw [ih, attachThumbStep_eq hwf, attachMediaStep_eq hwf]
    simp only [Api.attachPartsSpec, List.append_assoc]

theorem jsObjValue_append_right (l1 l2 : List (String × JsonValue)) (k : String)
    (h : k ∉ l2.map Prod.fst) : jsObjValue (l1 ++ l2) k = jsObjValue l1 k := by
  unfold jsObjValue
  rw [List.reverse_append]
  apply alookup_append_right
  simpa using h

theorem jsObjValue_append_single (l1 : List (String × JsonValue)) (k : String) (v : JsonValue) :
    jsObjValue (l1 ++ [(k, v)]) k = some v := by
  unfold jsObjValue
  rw [List.reverse_append]
  simp [alookup]

theorem mediaGroupDescriptors_get (cache : Cache) (group : List InputMedia) :
    ∀ (j i : Nat) (m : InputMedia), group.get? i = some m →
      (Api.mediaGroupDescriptors cache j group).get? i
        = some (JsonValue.obj (Api.descriptorFields cache (j + i) m)) := by
  induction group with
  | nil => intro j i m h; simp at h
  | cons g rest ih =>
    intro j i m h
    cases i with
    | zero =>
      simp only [List.get?_cons_zero] at h
      injection h with h
      subst h
      simp [Api.mediaGroupDescriptors]
    | succ n =>
      simp only [List.get?_cons_succ] at h
      show (Api.mediaGroupDescriptors cache (j + 1) rest).get? n = _
      rw [show j + (n + 1) = (j + 1) + n by omega]
      exact ih (j + 1) n m h

theorem descriptorFields_media (cache : Cache) (index : Nat) (m : InputMedia)
    (h1 : "media" ∉ (if m.isVideo then m.resolution else []).map Prod.fst)
    (h2 : "media" ∉ m.options.map Prod.fst) :
    jsObjValue (Api.descriptorFields cache index m) "media"
      = some (JsonValue.str (jsOr (MediaCache.getMediaFileId cache m.media)
          ("attach://" ++ toString index))) := by
  unfold Api.descriptorFields
  rw [jsObjValue_append_right _ _ _ h2, jsObjValue_append_right _ _ _ h1]
  cases ht : m.thumb with
  | none => simp [jsObjValue, alookup]
  | some t =>
    rw [jsObjValue_append_right]
    · simp [jsObjValue, alookup]
    · simp

theorem descriptorFields_thumb (cache : Cache) (index : Nat) (m : InputMedia) (t : MediaRef)
    (ht : m.thumb = some t)
    (h1 : "thumb" ∉ (if m.isVideo then m.resolution else []).map Prod.fst)
    (h2 : "thumb" ∉ m.options.map Prod.fst) :
    jsObjValue (Api.descriptorFields cache index m) "thumb"
      = some (JsonValue.str (jsOr (MediaCache.getMediaFileId cache t.media)
          ("attach://" ++ toString index ++ "_thumb"))) := by
  unfold Api.descriptorFields
  rw [jsObjValue_append_right _ _ _ h2, jsObjValue_append_right _ _ _ h1, ht]
  exact jsObjValue_append_single _ _ _

/-! ## Claim theorems -/

/-- C1: for every media group sent via `sendMediaGroup`, each cache-miss item
is represented in the JSON descriptor array by the placeholder
`attach://{index}` (and `attach://{index}_thumb` for a present uncached
thumbnail), with its raw binary appended to the multipart form under the
field name equal to that index, while each cache-hit item is represented by
its cached identifier string and contributes no binary part. The binary
parts of the form are exactly `attachPartsSpec`: in index order, one part
named `toString index` per cache-miss item (and `toString index ++ "_thumb"`
per uncached present thumbnail) and nothing for hits. -/
theorem mediaGroup_attach_placeholders (cache : Cache) (group : List InputMedia)
    (hwf : CacheWF cache) :
    Api.attachLoop cache group [] 0 = Api.attachPartsSpec cache 0 group
    ∧ (∀ (chatId : ConfigValue) (moreOptions : Config),
        Api.sendMediaGroupForm cache chatId group moreOptions
          = Api.buildAttachFormData
              ([("chat_id", chatId),
                ("media", ConfigValue.obj (JsonValue.arr (Api.mediaGroupDescriptors cache 0 group)))]
               ++ moreOptions)
            ++ Api.attachPartsSpec cache 0 group)
    ∧ (∀ (i : Nat) (m : InputMedia), group.get? i = some m →
        (Api.mediaGroupDescriptors cache 0 group).get? i
          = some (JsonValue.obj (Api.descriptorFields cache i m)))
    ∧ (∀ (i : Nat) (m : InputMedia), group.get? i = some m →
        "media" ∉ (if m.isVideo then m.resolution else []).map Prod.fst →
        "media" ∉ m.options.map Prod.fst →
        (MediaCache.getMediaFileId cache m.media = none →
          jsObjValue (Api.descriptorFields cache i m) "media"
            = some (JsonValue.str ("attach://" ++ toString i)))
        ∧ (∀ fileId, MediaCache.getMediaFileId cache m.media = some fileId →
          jsObjValue (Api.descriptorFields cache i m) "media"
            = some (JsonValue.str fileId)))
    ∧ (∀ (i : Nat) (m : InputMedia) (t : MediaRef), group.get? i = some m →
        m.thumb = some t →
        "thumb" ∉ (if m.isVideo then m.resolution else []).map Prod.fst →
        "thumb" ∉ m.options.map Prod.fst →
        (MediaCache.getMediaFileId cache t.media = none →
          jsObjValue (Api.descriptorFields cache i m) "thumb"
            = some (JsonValue.str ("attach://" ++ toString i ++ "_thumb")))
        ∧ (∀ fileId, MediaCache.getMediaFileId cache t.media = some fileId →
          jsObjValue (Api.descriptorFields cache i m) "thumb"
            = some (JsonValue.str fileId))) := by
  refine ⟨attachLoop_eq_spec hwf group [] 0, ?_, ?_, ?_, ?_⟩
  · intro chatId moreOptions
    unfold Api.sendMediaGroupForm
    exact attachLoop_eq_spec hwf group _ 0
  · intro i m h
    simpa using mediaGroupDescriptors_get cache group 0 i m h
  · intro i m _h h1 h2
    constructor
    · intro hm
      rw [descriptorFields_media cache i m h1 h2, hm]
      simp [jsOr]
    · intro fileId hm
      rw [descriptorFields_media cache i m h1 h2, hm]
      simp [jsOr, CacheWF.lookup_ne_empty hwf hm]
  · intro i m t _h ht h1 h2
    constructor
    · intro hm
      rw [descriptorFields_thumb cache i m t ht h1 h2, hm]
      simp [jsOr]
    · intro fileId hm
      rw [descriptorFields_thumb cache i m t ht h1 h2, hm]
      simp [jsOr, CacheWF.lookup_ne_empty hwf hm]

/-- Witness for C1: the spec's three-item batch (items 0 and 2 misses, item 1
a hit on `CACHED1`): binary parts are named `"0"` and `"2"` only, the
descriptors read `attach://0`, `CACHED1`, `attach://2`, and an uncached
thumbnail yields `attach://0_thumb`. -/
theorem mediaGroup_attach_placeholders_witness :
    Api.attachLoop sampleCacheHitB sampleGroup [] 0
      = [("0", FormValue.stream "pa.jpg"), ("2", FormValue.stream "pc.pdf")]
    ∧ (Api.mediaGroupDescriptors sampleCacheHitB 0 sampleGroup).get? 0
        = some (JsonValue.obj (Api.descriptorFields sampleCacheHitB 0 sampleItemA))
    ∧ jsObjValue (Api.descriptorFields sampleCacheHitB 0 sampleItemA) "media"
        = some (JsonValue.str "attach://0")
    ∧ jsObjValue (Api.descriptorFields sampleCacheHitB 1 sampleItemB) "media"
        = some (JsonValue.str "CACHED1")
    ∧ jsObjValue (Api.descriptorFields sampleCacheHitB 2 sampleItemC) "media"
        = some (JsonValue.str "attach://2")
    ∧ jsObjValue (Api.descriptorFields sampleCacheHitB 0 sampleItemD) "thumb"
        = some (JsonValue.str "attach://0_thumb") := by
  have h := mediaGroup_attach_placeholders sampleCacheHitB sampleGroup
    (by unfold CacheWF; decide)
  have hD := mediaGroup_attach_placeholders sampleCacheHitB [sampleItemD]
    (by unfold CacheWF; decide)
  refine ⟨h.1.trans (by rfl), h.2.2.1 0 sampleItemA rfl, ?_, ?_, ?_, ?_⟩
  · exact ((h.2.2.2.1 0 sampleItemA rfl (by decide) (by decide)).1 rfl).trans (by rfl)
  · exact (h.2.2.2.1 1 sampleItemB rfl (by decide) (by decide)).2 "CACHED1" rfl
  · exact ((h.2.2.2.1 2 sampleItemC rfl (by decide) (by decide)).1 rfl).trans (by rfl)
  · exact ((hD.2.2.2.2 0 sampleItemD { media := "td.jpg", passType := PassType.path }
      rfl rfl (by decide) (by decide)).1 rfl).trans (by rfl)

/-- C2: after a successful `sendMediaGroup` call, the write-back pairs the
i-th response message with the i-th input item by position and applies the
single-item write-back rule to each pair, so looking up the i-th item's
local key yields the i-th message's extracted file identifier (for items
whose keys were not already cached). -/
theorem mediaGroup_writeback_positional (cache : Cache) (group : List InputMedia)
    (msgs : List IMessage)
    (hnodup : (group.map (fun m => m.media)).Nodup)
    (hmiss : ∀ m ∈ group, MediaCache.getMediaFileId cache m.media = none)
    (i : Nat) (m : InputMedia) (msg : IMessage)
    (hm : group.get? i = some m) (hmsg : msgs.get? i = some msg) :
    MediaCache.getMediaFileId (Api.batchWriteBack cache group msgs) m.media
      = Api.extractedFileId m.type msg :=
  batchWriteBack_lookup group msgs cache i m msg hnodup hmiss hm hmsg

/-- Witness for C2: the batch `[a, b, c]` with response `[m0, m1, m2]` caches
`a` to `m0`'s identifier (last photo variant), `b` to `m1`'s and `c` to
`m2`'s — positional pairing. -/
theorem mediaGroup_writeback_positional_witness :
    MediaCache.getMediaFileId
        (Api.batchWriteBack [] sampleGroup [sampleMsgA, sampleMsgB, sampleMsgC]) "pa.jpg"
      = some "fa_big"
    ∧ MediaCache.getMediaFileId
        (Api.batchWriteBack [] sampleGroup [sampleMsgA, sampleMsgB, sampleMsgC]) "pb.mp4"
      = some "fb"
    ∧ MediaCache.getMediaFileId
        (Api.batchWriteBack [] sampleGroup [sampleMsgA, sampleMsgB, sampleMsgC]) "pc.pdf"
      = some "fc" := by
  refine ⟨?_, ?_, ?_⟩
  · exact (mediaGroup_writeback_positional [] sampleGroup [sampleMsgA, sampleMsgB, sampleMsgC]
      (by decide) (by decide) 0 sampleItemA sampleMsgA rfl rfl).trans (by rfl)
  · exact (mediaGroup_writeback_positional [] sampleGroup [sampleMsgA, sampleMsgB, sampleMsgC]
      (by decide) (by decide) 1 sampleItemB sampleMsgB rfl rfl).trans (by rfl)
  · exact (mediaGroup_writeback_positional [] sampleGroup [sampleMsgA, sampleMsgB, sampleMsgC]
      (by decide) (by decide) 2 sampleItemC sampleMsgC rfl rfl).trans (by rfl)

/-- C3: write-back is an idempotent insert. A key that already holds an
identifier is never overwritten, neither by `Api.saveMediaFileId` (which
checks the cache first) nor by the cache's own `store`; writing `v1` and
then `v2` for the same fresh key leaves the cached value at `v1`. -/
theorem writeback_idempotent_insert :
    (∀ (cache : Cache) (path mediaKey : String) (msg : IMessage) (v : String),
        MediaCache.getMediaFileId cache path = some v →
        MediaCache.getMediaFileId (Api.saveMediaFileId cache path mediaKey msg) path = some v)
    ∧ (∀ (cache : Cache) (key v w : String),
        MediaCache.getMediaFileId cache key = some v →
        MediaCache.saveMediaFileId cache key w = cache)
    ∧ (∀ (cache : Cache) (key v1 v2 : String),
        MediaCache.getMediaFileId cache key = none →
        MediaCache.getMediaFileId
          (MediaCache.saveMediaFileId (MediaCache.saveMediaFileId cache key v1) key v2) key
        = some v1)
    ∧ (∀ (cache : Cache) (path mediaKey : String) (m1 m2 : IMessage) (v1 : String),
        MediaCache.getMediaFileId cache path = none →
        Api.extractedFileId mediaKey m1 = some v1 →
        MediaCache.getMediaFileId
          (Api.saveMediaFileId (Api.saveMediaFileId cache path mediaKey m1) path mediaKey m2)
          path
        = some v1) := by
  refine ⟨apiSave_lookup_of_some, mediaCacheSave_of_present, ?_, ?_⟩
  · intro cache key v1 v2 h
    have h1 := getMediaFileId_save_of_none cache key v1 h
    rw [mediaCacheSave_of_present _ _ _ _ h1]
    exact h1
  · intro cache path mediaKey m1 m2 v1 h he
    have h1 : MediaCache.getMediaFileId (Api.saveMediaFileId cache path mediaKey m1) path
        = some v1 := by
      rw [apiSave_lookup_self_of_none cache path mediaKey m1 h]
      exact he
    exact apiSave_lookup_of_some _ _ _ _ _ h1

/-- Witness for C3: after caching `"ID1"` under `"p.jpg"`, a second write-back
carrying `"ID2"` leaves the cached value at `"ID1"`, at both the cache level
and the `Api.saveMediaFileId` level. -/
theorem writeback_idempotent_insert_witness :
    MediaCache.getMediaFileId
        (MediaCache.saveMediaFileId (MediaCache.saveMediaFileId [] "p.jpg" "ID1") "p.jpg" "ID2")
        "p.jpg"
      = some "ID1"
    ∧ MediaCache.saveMediaFileId [("p.jpg", "ID1")] "p.jpg" "ID2" = [("p.jpg", "ID1")]
    ∧ MediaCache.getMediaFileId
        (Api.saveMediaFileId
          (Api.saveMediaFileId [] "p.jpg" "photo" ⟨[("photo", MessageMedia.photoArr ["ID1"])]⟩)
          "p.jpg" "photo" ⟨[("photo", MessageMedia.photoArr ["ID2"])]⟩)
        "p.jpg"
      = some "ID1" := by
  refine ⟨?_, ?_, ?_⟩
  · exact writeback_idempotent_insert.2.2.1 [] "p.jpg" "ID1" "ID2" rfl
  · exact writeback_idempotent_insert.2.1 [("p.jpg", "ID1")] "p.jpg" "ID1" "ID2" rfl
  · exact writeback_idempotent_insert.2.2.2 [] "p.jpg" "photo"
      ⟨[("photo", MessageMedia.photoArr ["ID1"])]⟩ ⟨[("photo", MessageMedia.photoArr ["ID2"])]⟩
      "ID1" rfl rfl

/-- C6: for a successful single-photo send whose response carries the
ascending-resolution variant list, the identifier written back for the
photo's local key is the `file_id` of the last (largest) variant; for
non-photo media kinds the single media object's `file_id` is used. -/
theorem saveMediaFileId_photo_last_variant (cache : Cache) (path : String) (msg : IMessage) :
    (∀ (fileIds : List String) (lastId : String),
        MediaCache.getMediaFileId cache path = none →
        msgField msg "photo" = some (MessageMedia.photoArr fileIds) →
        fileIds.getLast? = some lastId →
        MediaCache.getMediaFileId (Api.saveMediaFileId cache path "photo" msg) path
          = some lastId)
    ∧ (∀ (mediaKey fileId : String), mediaKey ≠ "photo" →
        MediaCache.getMediaFileId cache path = none →
        msgField msg mediaKey = some (MessageMedia.mediaObj fileId) →
        MediaCache.getMediaFileId (Api.saveMediaFileId cache path mediaKey msg) path
          = some fileId) := by
  constructor
  · intro fileIds lastId h hf hl
    rw [apiSave_lookup_self_of_none cache path "photo" msg h]
    unfold Api.extractedFileId
    rw [hf]
    simpa using hl
  · intro mediaKey fileId hk h hf
    rw [apiSave_lookup_self_of_none cache path mediaKey msg h]
    unfold Api.extractedFileId
    rw [hf]
    simp [hk]

/-- Witness for C6: a three-variant photo response caches the last variant's
identifier; a video response caches the single object's identifier. -/
theorem saveMediaFileId_photo_last_variant_witness :
    MediaCache.getMediaFileId
        (Api.saveMediaFileId [] "p.jpg" "photo"
          ⟨[("photo", MessageMedia.photoArr ["f_s", "f_m", "f_l"])]⟩) "p.jpg"
      = some "f_l"
    ∧ MediaCache.getMediaFileId
        (Api.saveMediaFileId [] "v.mp4" "video" ⟨[("video", MessageMedia.mediaObj "fv")]⟩)
        "v.mp4"
      = some "fv" := by
  constructor
  · exact (saveMediaFileId_photo_last_variant [] "p.jpg"
      ⟨[("photo", MessageMedia.photoArr ["f_s", "f_m", "f_l"])]⟩).1 ["f_s", "f_m", "f_l"] "f_l"
      rfl rfl rfl
  · exact (saveMediaFileId_photo_last_variant [] "v.mp4"
      ⟨[("video", MessageMedia.mediaObj "fv")]⟩).2 "video" "fv" (by decide) rfl rfl

theorem buildFormData_decomp (cache : Cache) (fromMediaKey : String) (media : MediaRef)
    (config : Config) :
    Api.buildFormData cache fromMediaKey media config
      = [(fromMediaKey, mediaFormValue (Api.resolveMedia cache media))]
        ++ (match configThumb config with
            | some t => [("thumb", mediaFormValue (Api.resolveMedia cache t))]
            | none => [])
        ++ Api.configFieldsSpec config := by
  simp only [Api.buildFormData]
  cases hct : configThumb config with
  | none => simp [configLoop_eq_append, appendMedia_eq]
  | some t => simp [configLoop_eq_append, appendMedia_eq]

theorem resolveMedia_hit (cache : Cache) (m : MediaRef) (fileId : String)
    (h : MediaCache.getMediaFileId cache m.media = some fileId) (hne : fileId ≠ "") :
    Api.resolveMedia cache m = MediaOrString.str fileId := by
  unfold Api.resolveMedia
  rw [h]
  simp [hne]

theorem resolveMedia_miss (cache : Cache) (m : MediaRef)
    (h : MediaCache.getMediaFileId cache m.media = none) :
    Api.resolveMedia cache m = MediaOrString.media m := by
  unfold Api.resolveMedia
  rw [h]

/-- C4: in a single-item form, a cache hit on the primary media yields the
cached identifier as a plain string field value and no binary part under
that field name; a binary stream or buffer appears under the media field
only on a cache miss; and a cache hit on the thumbnail yields the cached
identifier as the first `thumb` value, with no binary value under `thumb`
at all. -/
theorem buildFormData_cache_hit_no_binary (cache : Cache) (fromMediaKey : String)
    (media : MediaRef) (config : Config)
    (hkey : fromMediaKey ∉ config.map Prod.fst) (hkt : fromMediaKey ≠ "thumb") :
    (∀ fileId, MediaCache.getMediaFileId cache media.media = some fileId → fileId ≠ "" →
        fieldValues (Api.buildFormData cache fromMediaKey media config) fromMediaKey
          = [FormValue.str fileId])
    ∧ (MediaCache.getMediaFileId cache media.media = none →
        fieldValues (Api.buildFormData cache fromMediaKey media config) fromMediaKey
          = [binaryOfMedia media])
    ∧ (∀ (t : MediaRef) (thumbId : String), configThumb config = some t →
        MediaCache.getMediaFileId cache t.media = some thumbId → thumbId ≠ "" →
        (fieldValues (Api.buildFormData cache fromMediaKey media config) "thumb").head?
          = some (FormValue.str thumbId)
        ∧ ∀ v ∈ fieldValues (Api.buildFormData cache fromMediaKey media config) "thumb",
            v.isBinary = false) := by
  have hd := buildFormData_decomp cache fromMediaKey media config
  refine ⟨?_, ?_, ?_⟩
  · intro fileId hm hne
    rw [hd, resolveMedia_hit cache media fileId hm hne]
    rw [fieldValues_append, fieldValues_append,
      fieldValues_configFieldsSpec_nil config fromMediaKey hkey]
    cases hct : configThumb config with
    | none => simp [fieldValues, mediaFormValue]
    | some t =>
      rw [fieldValues_nil_of_notmem [("thumb", mediaFormValue (Api.resolveMedia cache t))]
        fromMediaKey (by simp [hkt])]
      simp [fieldValues, mediaFormValue]
  · intro hm
    rw [hd, resolveMedia_miss cache media hm]
    rw [fieldValues_append, fieldValues_append,
      fieldValues_configFieldsSpec_nil config fromMediaKey hkey]
    cases hct : configThumb config with
    | none => simp [fieldValues, mediaFormValue]
    | some t =>
      rw [fieldValues_nil_of_notmem [("thumb", mediaFormValue (Api.resolveMedia cache t))]
        fromMediaKey (by simp [hkt])]
      simp [fieldValues, mediaFormValue]
  · intro t thumbId hct hm hne
    have hd2 : Api.buildFormData cache fromMediaKey media config
        = [(fromMediaKey, mediaFormValue (Api.resolveMedia cache media))]
          ++ [("thumb", mediaFormValue (Api.resolveMedia cache t))]
          ++ Api.configFieldsSpec config := by
      rw [hd, hct]
    rw [hd2, resolveMedia_hit cache t thumbId hm hne]
    have hA : fieldValues [(fromMediaKey, mediaFormValue (Api.resolveMedia cache media))]
        "thumb" = [] := by
      apply fieldValues_nil_of_notmem
      simpa using Ne.symm hkt
    constructor
    · rw [fieldValues_append, fieldValues_append, hA]
      simp [fieldValues, mediaFormValue]
    · intro v hv
      rw [fieldValues_append, fieldValues_append, hA] at hv
      simp [fieldValues] at hv
      rcases hv with h1 | h1
      · rw [h1]; rfl
      · exact fieldValues_configFieldsSpec_not_binary config "thumb" v h1

/-- Witness for C4: with `p.jpg` cached as `IDP` and `th.jpg` cached as `IDT`,
the form holds the identifier strings (and a binary stream appears only in
the uncached build). -/
theorem buildFormData_cache_hit_no_binary_witness :
    fieldValues (Api.buildFormData [("p.jpg", "IDP"), ("th.jpg", "IDT")] "video"
        { media := "p.jpg", passType := PassType.path }
        [("chat_id", ConfigValue.str "1"),
         ("thumb", ConfigValue.mediaV { media := "th.jpg", passType := PassType.path })])
      "video" = [FormValue.str "IDP"]
    ∧ fieldValues (Api.buildFormData [] "video"
        { media := "p.jpg", passType := PassType.path }
        [("chat_id", ConfigValue.str "1")]) "video" = [FormValue.stream "p.jpg"]
    ∧ (fieldValues (Api.buildFormData [("p.jpg", "IDP"), ("th.jpg", "IDT")] "video"
        { media := "p.jpg", passType := PassType.path }
        [("chat_id", ConfigValue.str "1"),
         ("thumb", ConfigValue.mediaV { media := "th.jpg", passType := PassType.path })])
      "thumb").head? = some (FormValue.str "IDT") := by
  have h1 := buildFormData_cache_hit_no_binary [("p.jpg", "IDP"), ("th.jpg", "IDT")] "video"
    { media := "p.jpg", passType := PassType.path }
    [("chat_id", ConfigValue.str "1"),
     ("thumb", ConfigValue.mediaV { media := "th.jpg", passType := PassType.path })]
    (by decide) (by decide)
  have h2 := buildFormData_cache_hit_no_binary [] "video"
    { media := "p.jpg", passType := PassType.path }
    [("chat_id", ConfigValue.str "1")] (by decide) (by decide)
  refine ⟨h1.1 "IDP" rfl (by decide), h2.2.1 rfl, ?_⟩
  exact (h1.2.2 { media := "th.jpg", passType := PassType.path } "IDT" rfl rfl (by decide)).1

/-- C5 (failing-input evaluation): building a `sendVideo`-style form with a
present thumbnail yields TWO fields named `thumb` — the resolved binary from
the resolve-or-attach step, and a second one holding the JSON text of the
thumbnail `Media` object, appended again by the generic configuration loop
(which iterates over every key of `config`, `thumb` included). -/
theorem buildFormData_thumb_duplicated :
    fieldValues (Api.buildFormData [] "video"
        { media := "vid.mp4", passType := PassType.path } sampleVideoCfg) "thumb"
      = [FormValue.stream "th.jpg", FormValue.jsonOfMedia sampleThumb]
    ∧ (fieldValues (Api.buildFormData [] "video"
        { media := "vid.mp4", passType := PassType.path } sampleVideoCfg) "thumb").length
      = 2 := by
  constructor <;> rfl

/-- C7: the form builders omit every configuration field whose value is
empty/absent: the field names of the built form are exactly the names of the
truthy fields, and a config with one populated and one `undefined` field
yields a form with only the populated field. -/
theorem form_builders_omit_empty_fields :
    (∀ config : Config,
        (Api.buildAttachFormData config).map Prod.fst
          = (config.filter (fun e => jsTruthy e.2)).map Prod.fst)
    ∧ (∀ (fd : FormData) (config : Config),
        (Api.configLoop fd config).map Prod.fst
          = fd.map Prod.fst ++ (config.filter (fun e => jsTruthy e.2)).map Prod.fst)
    ∧ Api.buildAttachFormData [("chat_id", ConfigValue.str "42"), ("caption", ConfigValue.undef)]
        = [("chat_id", FormValue.str "42")] := by
  refine ⟨?_, ?_, by rfl⟩
  · intro config
    unfold Api.buildAttachFormData
    rw [configLoop_eq_append]
    simpa using configFieldsSpec_map_fst config
  · intro fd config
    rw [configLoop_eq_append, List.map_append, configFieldsSpec_map_fst config]

theorem alookup_append_left {α : Type} (l1 l2 : List (String × α)) (k : String) (v : α)
    (h : alookup l1 k = some v) : alookup (l1 ++ l2) k = some v := by
  induction l1 with
  | nil => simp [alookup] at h
  | cons e rest ih =>
    simp only [List.cons_append, alookup] at h ⊢
    by_cases he : e.1 = k
    · rwa [if_pos he] at h ⊢
    · rw [if_neg he] at h ⊢
      exact ih h

theorem alookup_append_none {α : Type} (l1 l2 : List (String × α)) (k : String)
    (h : alookup l1 k = none) : alookup (l1 ++ l2) k = alookup l2 k := by
  induction l1 with
  | nil => rfl
  | cons e rest ih =>
    simp only [List.cons_append, alookup] at h ⊢
    by_cases he : e.1 = k
    · rw [if_pos he] at h; exact absurd h (by simp)
    · rw [if_neg he] at h ⊢
      exact ih h

theorem configLoop_falsy_drop (fd : FormData) (pre post : Config) (k : String)
    (v : ConfigValue) (hv : jsTruthy v = false) :
    Api.configLoop fd (pre ++ (k, v) :: post)
      = Api.configLoop fd (pre ++ (k, ConfigValue.undef) :: post) := by
  rw [configLoop_eq_append, configLoop_eq_append]
  congr 1
  unfold Api.configFieldsSpec
  rw [List.filterMap_append, List.filterMap_append]
  congr 1
  simp [List.filterMap_cons, hv, show jsTruthy ConfigValue.undef = false from rfl]

theorem configThumb_falsy_drop (pre post : Config) (k : String) (v : ConfigValue)
    (hv : jsTruthy v = false) :
    configThumb (pre ++ (k, v) :: post) = configThumb (pre ++ (k, ConfigValue.undef) :: post) := by
  unfold configThumb
  cases hp : alookup pre "thumb" with
  | some x => rw [alookup_append_left _ _ _ _ hp, alookup_append_left _ _ _ _ hp]
  | none =>
    rw [alookup_append_none _ _ _ hp, alookup_append_none _ _ _ hp]
    by_cases hk : k = "thumb"
    · simp only [alookup, if_pos hk]
      cases v with
      | mediaV m => simp [jsTruthy] at hv
      | obj j => simp [jsTruthy] at hv
      | undef => rfl
      | null => rfl
      | str s => rfl
      | num n => rfl
      | bool b => rfl
    · simp only [alookup, if_neg hk]

/-- C10 (implicit): the form builders drop every falsy configuration value —
a field set to `false`, `0` or the empty string is omitted exactly as if it
were `undefined`, in both `buildAttachFormData`'s loop and `buildFormData`. -/
theorem form_builders_drop_falsy_fields :
    (∀ (fd : FormData) (pre post : Config) (k : String) (v : ConfigValue),
        jsTruthy v = false →
        Api.configLoop fd (pre ++ (k, v) :: post)
          = Api.configLoop fd (pre ++ (k, ConfigValue.undef) :: post))
    ∧ (∀ (cache : Cache) (fromMediaKey : String) (media : MediaRef) (pre post : Config)
        (k : String) (v : ConfigValue), jsTruthy v = false →
        Api.buildFormData cache fromMediaKey media (pre ++ (k, v) :: post)
          = Api.buildFormData cache fromMediaKey media (pre ++ (k, ConfigValue.undef) :: post))
    ∧ jsTruthy (ConfigValue.bool false) = false
    ∧ jsTruthy (ConfigValue.num 0) = false
    ∧ jsTruthy (ConfigValue.str "") = false := by
  refine ⟨configLoop_falsy_drop, ?_, rfl, by simp [jsTruthy], by simp [jsTruthy]⟩
  intro cache fromMediaKey media pre post k v hv
  simp only [Api.buildFormData]
  rw [configThumb_falsy_drop pre post k v hv]
  exact configLoop_falsy_drop _ pre post k v hv

/-- Witness for C10: a `false`-valued field and a `0`-valued field are dropped
exactly as `undefined` would be. -/
theorem form_builders_drop_falsy_fields_witness :
    Api.configLoop []
        ([("caption", ConfigValue.str "hi")] ++ ("silent", ConfigValue.bool false) :: [])
      = Api.configLoop []
        ([("caption", ConfigValue.str "hi")] ++ ("silent", ConfigValue.undef) :: [])
    ∧ Api.buildFormData [] "photo" { media := "p.jpg", passType := PassType.path }
        ([] ++ ("count", ConfigValue.num 0) :: [("chat_id", ConfigValue.str "1")])
      = Api.buildFormData [] "photo" { media := "p.jpg", passType := PassType.path }
        ([] ++ ("count", ConfigValue.undef) :: [("chat_id", ConfigValue.str "1")]) := by
  constructor
  · exact form_builders_drop_falsy_fields.1 [] [("caption", ConfigValue.str "hi")] []
      "silent" (ConfigValue.bool false) rfl
  · exact form_builders_drop_falsy_fields.2.1 [] "photo"
      { media := "p.jpg", passType := PassType.path } [] [("chat_id", ConfigValue.str "1")]
      "count" (ConfigValue.num 0) (by decide)

/-- C8: if the remote call fails, the send throws the wrapped error and no
write-back occurs — the observable cache state after the failed call equals
the cache state before it, for single-item and batch sends alike. -/
theorem failed_call_no_writeback (cache : Cache) (token : String) (htok : token ≠ "")
    (method mediaKey : String) (media : MediaRef) (config : Config)
    (chatId : ConfigValue) (group : List InputMedia) (moreOptions : Config)
    (e : TransportFailure) :
    Api.sendSingleMedia cache (some token) method mediaKey media config (Except.error e)
        = Except.error (".callApi error: " ++ Api.describeFailure e)
    ∧ Api.cacheAfterSingleSend cache (some token) method mediaKey media config (Except.error e)
        = cache
    ∧ Api.sendMediaGroupRun cache (some token) chatId group moreOptions (Except.error e)
        = Except.error (".callApi error: " ++ Api.describeFailure e)
    ∧ Api.cacheAfterGroupSend cache (some token) chatId group moreOptions (Except.error e)
        = cache := by
  have hf : jsFalsyOpt (some token) = false := by simp [jsFalsyOpt, htok]
  have hc : ∀ (α : Type) (mth : String),
      Api.callApi (α := α) (some token) mth (Except.error e)
        = Except.error (".callApi error: " ++ Api.describeFailure e) := by
    intro α mth
    simp [Api.callApi, hf, Api.call]
  have h1 : Api.sendSingleMedia cache (some token) method mediaKey media config
      (Except.error e) = Except.error (".callApi error: " ++ Api.describeFailure e) := by
    simp only [Api.sendSingleMedia]
    rw [hc IMessage method]
  have h3 : Api.sendMediaGroupRun cache (some token) chatId group moreOptions
      (Except.error e) = Except.error (".callApi error: " ++ Api.describeFailure e) := by
    simp only [Api.sendMediaGroupRun]
    rw [hc (List IMessage) "sendMediaGroup"]
  refine ⟨h1, ?_, h3, ?_⟩
  · unfold Api.cacheAfterSingleSend
    rw [h1]
  · unfold Api.cacheAfterGroupSend
    rw [h3]

/-- Witness for C8: a failed transport exchange with remote description
`desc` yields the wrapped error and leaves the (empty) cache untouched. -/
theorem failed_call_no_writeback_witness :
    Api.sendSingleMedia [] (some "TOKEN") "sendPhoto" "photo"
        { media := "p.jpg", passType := PassType.path } []
        (Except.error ⟨some "desc", "raw"⟩)
      = Except.error ".callApi error: desc"
    ∧ Api.cacheAfterSingleSend [] (some "TOKEN") "sendPhoto" "photo"
        { media := "p.jpg", passType := PassType.path } []
        (Except.error ⟨some "desc", "raw"⟩)
      = []
    ∧ Api.cacheAfterGroupSend [] (some "TOKEN") (ConfigValue.str "1") sampleGroup []
        (Except.error ⟨some "desc", "raw"⟩)
      = [] := by
  have h := failed_call_no_writeback [] "TOKEN" (by decide) "sendPhoto" "photo"
    { media := "p.jpg", passType := PassType.path } [] (ConfigValue.str "1") sampleGroup []
    ⟨some "desc", "raw"⟩
  exact ⟨h.1.trans (by rfl), h.2.1, h.2.2.2⟩

/-- C9: invoking any remote method through `callApi` without a configured
access token (absent or empty) raises the missing-token error, and the
result does not depend on any transport outcome — no request is sent. -/
theorem callApi_missing_token :
    (∀ (method : String) (outcome : Except TransportFailure IMessage),
        Api.callApi none method outcome
          = Except.error ("You can't call ." ++ method ++ " without token"))
    ∧ (∀ (method : String) (outcome : Except TransportFailure IMessage),
        Api.callApi (some "") method outcome
          = Except.error ("You can't call ." ++ method ++ " without token"))
    ∧ (∀ (method : String) (o1 o2 : Except TransportFailure IMessage),
        Api.callApi none method o1 = Api.callApi none method o2) := by
  refine ⟨fun method outcome => rfl, fun method outcome => rfl, fun method o1 o2 => rfl⟩
